import Mathlib

/-!
Verification development for the stereo rectification module
(src/utils/stereo_rectify.py).

The Python module is embedded shallowly: numpy matrices become explicit
record types over the rationals, floating point arithmetic is modelled by
exact rational arithmetic, Python exceptions become an explicit error type
carried in `Except`, and in-place mutation of the loaded calibration
dictionary is modelled by a store (address-indexed map of records).
The external OpenCV routines called by the module are treated as follows:
`cv2.stereoRectify` is an external collaborator and is passed in as an
abstract function argument; `cv2.initUndistortRectifyMap`, `cv2.remap` and
`cv2.warpAffine` are modelled concretely from their documented pixel-level
semantics because the claims under scrutiny depend on which arguments the
repository code feeds them and on the resulting pixel values.
-/

/-- Error kinds of the module, named as in the specification.
In the Python source `UnsupportedModeKind` is an `assert`/`NotImplementedError`
on the mode string and `UnsupportedCropKind` is the failing
`assert h_crop >= 0` in `StereoRectifier.__init__`. -/
inductive Err where
  | UnsupportedModeKind : Err
  | UnsupportedCropKind : Err
deriving DecidableEq

/-- A 3-vector of rationals (a numpy length-3 array). -/
structure Vec3 where
  x : ℚ
  y : ℚ
  z : ℚ
deriving DecidableEq

/-- A 3x3 rational matrix with explicit entries (row, column indices). -/
structure Mat3 where
  a00 : ℚ
  a01 : ℚ
  a02 : ℚ
  a10 : ℚ
  a11 : ℚ
  a12 : ℚ
  a20 : ℚ
  a21 : ℚ
  a22 : ℚ
deriving DecidableEq

/-- The 3x3 identity matrix (numpy eye(3)). -/
def Mat3.id3 : Mat3 :=
  ⟨1, 0, 0, 0, 1, 0, 0, 0, 1⟩

/-- Matrix-vector product. -/
def Mat3.mulVec (m : Mat3) (v : Vec3) : Vec3 :=
  ⟨m.a00 * v.x + m.a01 * v.y + m.a02 * v.z,
   m.a10 * v.x + m.a11 * v.y + m.a12 * v.z,
   m.a20 * v.x + m.a21 * v.y + m.a22 * v.z⟩

/-- Determinant of a 3x3 matrix. -/
def Mat3.det (m : Mat3) : ℚ :=
  m.a00 * (m.a11 * m.a22 - m.a12 * m.a21)
    - m.a01 * (m.a10 * m.a22 - m.a12 * m.a20)
    + m.a02 * (m.a10 * m.a21 - m.a11 * m.a20)

/-- Inverse of a 3x3 matrix via the adjugate; rational division by a zero
determinant yields the zero matrix, matching the convention that the
library is only invoked on invertible rectification rotations. -/
def Mat3.inv (m : Mat3) : Mat3 :=
  let d := m.det
  ⟨(m.a11 * m.a22 - m.a12 * m.a21) / d,
   (m.a02 * m.a21 - m.a01 * m.a22) / d,
   (m.a01 * m.a12 - m.a02 * m.a11) / d,
   (m.a12 * m.a20 - m.a10 * m.a22) / d,
   (m.a00 * m.a22 - m.a02 * m.a20) / d,
   (m.a02 * m.a10 - m.a00 * m.a12) / d,
   (m.a10 * m.a21 - m.a11 * m.a20) / d,
   (m.a01 * m.a20 - m.a00 * m.a21) / d,
   (m.a00 * m.a11 - m.a01 * m.a10) / d⟩

/-- A 3x4 projection matrix, split as its left 3x3 block and its last
column (as produced by cv2.stereoRectify). In pseudo mode the code keeps a
plain 3x3 camera matrix whose fourth column is never read; it is embedded
with a zero last column. -/
structure P34 where
  m : Mat3
  t : Vec3
deriving DecidableEq

/-- Canonical Calibration Record, the dictionary produced by the loaders
(`lkmat`, `rkmat`, `ld`, `rd`, `T`, `R`, `img_size`).  Distortion
coefficient vectors have variable length, hence lists.  `img_size` is a
(width, height) pair of Python floats, hence rationals. -/
structure Cal where
  lkmat : Mat3
  rkmat : Mat3
  ld : List ℚ
  rd : List ℚ
  T : Vec3
  R : Mat3
  img_size : ℚ × ℚ
deriving DecidableEq

/-- Truncation toward zero, the semantics of Python `int()` applied to a
float, as in `h_crop = int(...)`. -/
def truncQ (x : ℚ) : ℤ :=
  if 0 ≤ x then ⌊x⌋ else ⌈x⌉

/-- Python built-in `round` (banker rounding, ties to even), used by the
constructor on `img_size` before map construction. -/
def pythonRound (x : ℚ) : ℤ :=
  let f := ⌊x⌋
  let r := x - f
  if r < 1 / 2 then f
  else if 1 / 2 < r then f + 1
  else if f % 2 = 0 then f else f + 1

/-- Multiply the first two rows of a camera matrix by a scalar, the effect
of the numpy statement scaling `kmat[:2]`. -/
def scaleRows2 (m : Mat3) (s : ℚ) : Mat3 :=
  { m with
    a00 := m.a00 * s, a01 := m.a01 * s, a02 := m.a02 * s,
    a10 := m.a10 * s, a11 := m.a11 * s, a12 := m.a12 * s }

/-- Subtract a value from the vertical principal point entry `kmat[1, 2]`. -/
def subCy (m : Mat3) (c : ℚ) : Mat3 :=
  { m with a12 := m.a12 - c }

/-- Scale Adapter core, from `StereoRectifier.__init__` lines 90-103:
with no target size the record passes through with scale 1; otherwise
`scale = target_width / original_width`, the vertical crop is
`int((original_height * scale - target_height) / 2)` (Python truncation),
the failing assert `h_crop >= 0` is `UnsupportedCropKind`, and on success
both camera matrices have their first two rows scaled and the crop
subtracted from their vertical principal points, and `img_size` is
replaced by the target.  Returns the updated record and the scale. -/
def scaleCal (cal : Cal) (img_size_new : Option (ℚ × ℚ)) : Except Err (Cal × ℚ) :=
  match img_size_new with
  | none => .ok (cal, 1)
  | some isz =>
    let scale := isz.1 / cal.img_size.1
    let h_crop : ℤ := truncQ ((cal.img_size.2 * scale - isz.2) / 2)
    if 0 ≤ h_crop then
      .ok ({ cal with
              lkmat := subCy (scaleRows2 cal.lkmat scale) (h_crop : ℚ),
              rkmat := subCy (scaleRows2 cal.rkmat scale) (h_crop : ℚ),
              img_size := isz }, scale)
    else
      .error Err.UnsupportedCropKind

/-- A store of calibration records indexed by address, modelling the Python
heap: the loaded calibration dictionary and its numpy arrays are mutable
objects updated in place by the constructor. -/
def Store : Type := Nat → Cal

/-- Scale Adapter as it acts on the heap: the record at address `a` is
updated IN PLACE (the numpy `*=` and item assignments of lines 97-102
overwrite the loaded dictionary), and on the failing crop assert the
exception propagates before any mutation, leaving the store unchanged. -/
def scaleAdapterRun (s : Store) (a : Nat) (img_size_new : Option (ℚ × ℚ)) :
    Except Err Unit × Store :=
  match scaleCal (s a) img_size_new with
  | .ok (cal', _) => (.ok (), fun n => if n = a then cal' else s n)
  | .error e => (.error e, s)

/-- Coefficient access on a distortion vector: OpenCV reads missing
higher-order coefficients as zero (distCoeffs may have 4, 5 or 8 entries). -/
def dcoef (d : List ℚ) (i : Nat) : ℚ :=
  d.getD i 0

/-- Source pixel coordinate computed by cv2.initUndistortRectifyMap for one
destination pixel (u, v), following the documented OpenCV semantics: map
the destination pixel through the inverse of the new projection, rotate by
the inverse rectification rotation, apply the rational radial model
(k1, k2, p1, p2, k3, k4, k5, k6) and project with the original camera
matrix.  Returns the (map1, map2) entry, i.e. the distorted source
coordinate pair. -/
def undistortRectifyPixel (A : Mat3) (dist : List ℚ) (R : Mat3) (P : P34)
    (u v : ℕ) : ℚ × ℚ :=
  let xd := ((u : ℚ) - P.m.a02) / P.m.a00
  let yd := ((v : ℚ) - P.m.a12) / P.m.a11
  let w := R.inv.mulVec ⟨xd, yd, 1⟩
  let xp := w.x / w.z
  let yp := w.y / w.z
  let r2 := xp * xp + yp * yp
  let k1 := dcoef dist 0
  let k2 := dcoef dist 1
  let p1 := dcoef dist 2
  let p2 := dcoef dist 3
  let k3 := dcoef dist 4
  let k4 := dcoef dist 5
  let k5 := dcoef dist 6
  let k6 := dcoef dist 7
  let rad := (1 + k1 * r2 + k2 * (r2 * r2) + k3 * (r2 * r2 * r2))
      / (1 + k4 * r2 + k5 * (r2 * r2) + k6 * (r2 * r2 * r2))
  let xpp := xp * rad + 2 * p1 * xp * yp + p2 * (r2 + 2 * (xp * xp))
  let ypp := yp * rad + p1 * (r2 + 2 * (yp * yp)) + 2 * p2 * xp * yp
  (xpp * A.a00 + A.a02, ypp * A.a11 + A.a12)

/-- Dense coordinate maps built by cv2.initUndistortRectifyMap with
m1type = CV_32FC1: two planes of shape (height, width), the x-coordinate
plane (map1) and the y-coordinate plane (map2). -/
def initUndistortRectifyMap (A : Mat3) (dist : List ℚ) (R : Mat3) (P : P34)
    (size : ℕ × ℕ) : List (List ℚ) × List (List ℚ) :=
  ((List.range size.2).map fun v => (List.range size.1).map fun u =>
      (undistortRectifyPixel A dist R P u v).1,
   (List.range size.2).map fun v => (List.range size.1).map fun u =>
      (undistortRectifyPixel A dist R P u v).2)

/-- Result of cv2.stereoRectify that the module consumes: the two
rectifying rotations and the two rectified 3x4 projection matrices (the
disparity matrix q and the valid-pixel ROIs are discarded by the caller). -/
structure SROut where
  r1 : Mat3
  r2 : Mat3
  p1 : P34
  p2 : P34
deriving DecidableEq

/-- Argument record of the cv2.stereoRectify call in `get_rect_maps`
(alpha is fixed at 0 at the call site and is part of the collaborator). -/
structure SRArgs where
  lcam : Mat3
  ldist : List ℚ
  rcam : Mat3
  rdist : List ℚ
  img_size : ℕ × ℕ
  R : Mat3
  T : Vec3
deriving DecidableEq

/-- The external cv2.stereoRectify collaborator, passed in abstractly: its
internal algorithm is not part of this repository. -/
def SRFun : Type := SRArgs → SROut

/-- Upper-triangular normalisation of a camera matrix applied when
`triangular_intrinsics` is set in `get_rect_maps`: keep the diagonal focal
entries and the last-column principal point, zero the rest, set (2,2) to 1. -/
def triangularize (m : Mat3) : Mat3 :=
  ⟨m.a00, 0, m.a02, 0, m.a11, m.a12, 0, 0, 1⟩

/-- The four dense coordinate maps computed in conventional mode, stored
under the dictionary keys lmap1, lmap2, rmap1, rmap2. -/
structure RectMaps where
  lmap1 : List (List ℚ)
  lmap2 : List (List ℚ)
  rmap1 : List (List ℚ)
  rmap2 : List (List ℚ)
deriving DecidableEq

/-- Embedding of `get_rect_maps`: in conventional mode call the external
stereoRectify collaborator, then build the dense maps with
cv2.initUndistortRectifyMap.  Faithful to the source, the LEFT map is
built from (lcam_mat, ldist_coeffs, r1, p1) and the RIGHT map from
(rcam_mat, ldist_coeffs, r2, p2) - line 36 of the source passes
`distCoeffs=ldist_coeffs` for the right camera as well.  In pseudo mode no
maps are built and the raw camera matrices are returned as projections
(their unread fourth column embedded as zero).  Any other mode raises
(NotImplementedError, the UnsupportedModeKind of the specification). -/
def get_rect_maps (sr : SRFun) (lcam_mat rcam_mat : Mat3) (rmat : Mat3)
    (tvec : Vec3) (ldist_coeffs rdist_coeffs : List ℚ) (img_size : ℕ × ℕ)
    (triangular_intrinsics : Bool) (mode : String) :
    Except Err (Option RectMaps × P34 × P34) :=
  if mode = "conventional" then
    let lcam := if triangular_intrinsics then triangularize lcam_mat else lcam_mat
    let rcam := if triangular_intrinsics then triangularize rcam_mat else rcam_mat
    let o := sr ⟨lcam, ldist_coeffs, rcam, rdist_coeffs, img_size, rmat, tvec⟩
    let lmap := initUndistortRectifyMap lcam ldist_coeffs o.r1 o.p1 img_size
    let rmap := initUndistortRectifyMap rcam ldist_coeffs o.r2 o.p2 img_size
    .ok (some ⟨lmap.1, lmap.2, rmap.1, rmap.2⟩, o.p1, o.p2)
  else if mode = "pseudo" then
    .ok (none, ⟨lcam_mat, ⟨0, 0, 0⟩⟩, ⟨rcam_mat, ⟨0, 0, 0⟩⟩)
  else
    .error Err.UnsupportedModeKind

/-- A single-channel image: a rectangular grid of rational pixel values,
stored as a list of rows (the per-channel view of the arrays handled by
cv2.remap and cv2.warpAffine; the torch channel permutations performed by
`StereoRectifier.__call__` cancel and are channelwise identities). -/
def Image : Type := List (List ℚ)

/-- Image width, numpy shape[1]. -/
def Image.W (img : Image) : ℕ :=
  (img.headD []).length

/-- Image height, numpy shape[0]. -/
def Image.H (img : Image) : ℕ :=
  img.length

/-- Pixel access with the constant-border policy of OpenCV
(BORDER_CONSTANT with value 0, the default of both remap and warpAffine):
coordinates outside the image bounds read as the border value 0. -/
def pixAt (img : Image) (x y : ℤ) : ℚ :=
  if 0 ≤ x ∧ x < (Image.W img : ℤ) ∧ 0 ≤ y ∧ y < (Image.H img : ℤ) then
    (img.getD y.toNat []).getD x.toNat 0
  else 0

/-- Bilinear sampling (cv2 INTER_LINEAR, the warpAffine default) at a
sub-pixel source coordinate, blending with the constant border outside. -/
def bilinearSample (img : Image) (xs ys : ℚ) : ℚ :=
  let x0 : ℤ := ⌊xs⌋
  let y0 : ℤ := ⌊ys⌋
  let a := xs - (x0 : ℚ)
  let b := ys - (y0 : ℚ)
  (1 - a) * (1 - b) * pixAt img x0 y0
    + a * (1 - b) * pixAt img (x0 + 1) y0
    + (1 - a) * b * pixAt img x0 (y0 + 1)
    + a * b * pixAt img (x0 + 1) (y0 + 1)

/-- Nearest-neighbour sampling (cv2 INTER_NEAREST): round the source
coordinate to the nearest pixel centre. -/
def nearestSample (img : Image) (xs ys : ℚ) : ℚ :=
  pixAt img ⌊xs + 1 / 2⌋ ⌊ys + 1 / 2⌋

/-- Cubic convolution kernel with A = -3/4 used by cv2 INTER_CUBIC. -/
def cubicKernel (t : ℚ) : ℚ :=
  let s := |t|
  if s ≤ 1 then (5 / 4) * (s * s * s) - (9 / 4) * (s * s) + 1
  else if s < 2 then (-3 / 4) * (s * s * s) + (15 / 4) * (s * s) - 6 * s + 3
  else 0

/-- Bicubic sampling (cv2 INTER_CUBIC): 4x4 tap neighbourhood weighted by
the cubic convolution kernel, border taps reading the constant border. -/
def cubicSample (img : Image) (xs ys : ℚ) : ℚ :=
  let x0 : ℤ := ⌊xs⌋
  let y0 : ℤ := ⌊ys⌋
  let a := xs - (x0 : ℚ)
  let b := ys - (y0 : ℚ)
  ((List.range 4).map fun (n : ℕ) =>
    ((List.range 4).map fun (m : ℕ) =>
      cubicKernel (a - ((m : ℚ) - 1)) * cubicKernel (b - ((n : ℚ) - 1))
        * pixAt img (x0 + (m : ℤ) - 1) (y0 + (n : ℤ) - 1)).sum).sum

/-- Interpolation policies selectable in `rectify_pair`. -/
inductive Interp where
  | nearest : Interp
  | cubic : Interp
deriving DecidableEq

/-- Sample an image with the given interpolation policy. -/
def sampleWith (interp : Interp) (img : Image) (xs ys : ℚ) : ℚ :=
  match interp with
  | .nearest => nearestSample img xs ys
  | .cubic => cubicSample img xs ys

/-- Model of cv2.remap: the output has the shape of the coordinate maps
(one plane of x-coordinates, one of y-coordinates); every output pixel
samples the input at the mapped coordinate with the chosen interpolation,
reading the constant border 0 outside the input.  cv2.remap performs no
size check of the input image against the maps. -/
def remap (img : Image) (map1 map2 : List (List ℚ)) (interp : Interp) : Image :=
  (List.range map1.length).map fun y =>
    (List.range ((map1.headD []).length)).map fun x =>
      sampleWith interp img
        ((map1.getD y []).getD x 0) ((map2.getD y []).getD x 0)

/-- Interpolation selection of `rectify_pair` line 53: the string
"nearest" selects INTER_NEAREST and EVERY other string selects
INTER_CUBIC, with no validation. -/
def cvInterpol (method : String) : Interp :=
  if method = "nearest" then Interp.nearest else Interp.cubic

/-- Embedding of `rectify_pair`: remap both images through their maps with
the selected interpolation.  The function has no failure branch. -/
def rectify_pair (limg rimg : Image) (maps : RectMaps) (method : String) :
    Image × Image :=
  let cv_interpol := cvInterpol method
  (remap limg maps.lmap1 maps.lmap2 cv_interpol,
   remap rimg maps.rmap1 maps.rmap2 cv_interpol)

/-- Model of cv2.warpAffine restricted to the translation matrices built by
the pseudo rectification helpers: the destination size equals the source
size, the default flags invert the forward translation (dx, dy), and each
destination pixel bilinearly samples the source at (x - dx, y - dy) with
constant border 0. -/
def warpAffineTranslate (img : Image) (dx dy : ℚ) : Image :=
  (List.range img.H).map fun (y : ℕ) =>
    (List.range img.W).map fun (x : ℕ) =>
      bilinearSample img ((x : ℚ) - dx) ((y : ℚ) - dy)

/-- Embedding of `pseudo_rectify_2d`: warp the right image by the affine
translation matrix ((1, 0, x0 - x1), (0, 1, y0 - y1)) at the size of the
input image itself. -/
def pseudo_rectify_2d (rimg : Image) (x0 x1 y0 y1 : ℚ) : Image :=
  warpAffineTranslate rimg (x0 - x1) (y0 - y1)

/-- Embedding of `pseudo_rectify`: horizontal-only variant. -/
def pseudo_rectify (rimg : Image) (x0 x1 : ℚ) : Image :=
  warpAffineTranslate rimg (x0 - x1) 0

/-- State of a successfully constructed StereoRectifier: the (possibly
scaled) calibration record, the scale factor, the maps (none in pseudo
mode) and the two projection matrices l_intr, r_intr. -/
structure RectState where
  mode : String
  cal : Cal
  scale : ℚ
  maps : Option RectMaps
  l_intr : P34
  r_intr : P34
  img_size : ℚ × ℚ
deriving DecidableEq

/-- Embedding of `StereoRectifier.__init__` from the point at which a
loader (an external collaborator, specification section 6) has produced
the calibration record: assert the mode string is conventional or pseudo
(AssertionError, the UnsupportedModeKind of the specification), run the
Scale Adapter, then build the maps with `get_rect_maps` on the rounded
image size.  The external cv2.stereoRectify is a parameter.  The pseudo
mode warning is advisory and not part of the returned state. -/
def StereoRectifier.init (sr : SRFun) (cal0 : Cal)
    (img_size_new : Option (ℚ × ℚ)) (mode : String) : Except Err RectState :=
  if mode = "conventional" ∨ mode = "pseudo" then
    match scaleCal cal0 img_size_new with
    | .ok (cal, scale) =>
      match get_rect_maps sr cal.lkmat cal.rkmat cal.R cal.T cal.ld cal.rd
          ((pythonRound cal.img_size.1).toNat, (pythonRound cal.img_size.2).toNat)
          false mode with
      | .ok (maps, p1, p2) =>
        .ok ⟨mode, cal, scale, maps, p1, p2, cal.img_size⟩
      | .error e => .error e
    | .error e => .error e
  else
    .error Err.UnsupportedModeKind

/-- Embedding of `StereoRectifier.__call__`: in pseudo mode the left image
passes through and the right image is warped by the difference of the
principal points read from the scaled camera matrices; otherwise both
images are remapped through the stored maps with the default method
"nearest" (an absent maps value, impossible after conventional
construction, remaps through empty maps). -/
def StereoRectifier.call (st : RectState) (img_left img_right : Image) :
    Image × Image :=
  if st.mode = "pseudo" then
    let x0 := st.cal.lkmat.a02
    let x1 := st.cal.rkmat.a02
    let y0 := st.cal.lkmat.a12
    let y1 := st.cal.rkmat.a12
    (img_left, pseudo_rectify_2d img_right x0 x1 y0 y1)
  else
    rectify_pair img_left img_right (st.maps.getD ⟨[], [], [], []⟩) "nearest"

/-- The per-frame call surface wrapped in Except: the source `__call__`
and `rectify_pair` contain no validation and no raise, so every call
returns a value. -/
def StereoRectifier.callE (st : RectState) (img_left img_right : Image) :
    Except Err (Image × Image) :=
  .ok (StereoRectifier.call st img_left img_right)

/-- Rectified Calibration Summary returned by `get_rectified_calib`:
rectified 3x3 intrinsics, a 4x4 extrinsic transform (identity rotation
block and a translation column), and the image size.  The two real-valued
baseline-focal products of the same method are factored out below as
`summaryBf` and `summaryBfOrig` because exact real square roots have no
executable representation. -/
structure Summary where
  intr_left : Mat3
  intr_right : Mat3
  extr_rot : Mat3
  extr_t : Vec3
  img_size : ℚ × ℚ
deriving DecidableEq

/-- Embedding of `StereoRectifier.get_rectified_calib` (rational part):
the intrinsics are the 3x3 blocks of l_intr and r_intr; the extrinsic
transform starts as eye(4) and its translation column is overwritten with
(r_intr[0, 3] / r_intr[0, 0], 0, 0) in conventional mode and with the raw
calibration translation otherwise. -/
def get_rectified_calib (st : RectState) : Summary :=
  let extr_t : Vec3 :=
    if st.mode = "conventional" then
      ⟨st.r_intr.t.x / st.r_intr.m.a00, 0, 0⟩
    else
      st.cal.T
  { intr_left := st.l_intr.m,
    intr_right := st.r_intr.m,
    extr_rot := Mat3.id3,
    extr_t := extr_t,
    img_size := st.img_size }

/-- The bf entry of the summary, line 138 of the source: the euclidean
norm of the extrinsic translation column times l_intr[0, 0]. -/
noncomputable def summaryBf (st : RectState) : ℝ :=
  let t := (get_rectified_calib st).extr_t
  Real.sqrt (((t.x ^ 2 + t.y ^ 2 + t.z ^ 2 : ℚ) : ℝ)) * ((st.l_intr.m.a00 : ℚ) : ℝ)

/-- The bf_orig entry of the summary, line 139 of the source: bf divided
by the scale factor of the Scale Adapter. -/
noncomputable def summaryBfOrig (st : RectState) : ℝ :=
  summaryBf st / ((st.scale : ℚ) : ℝ)

/-! Concrete fixtures used to evaluate the embedding on explicit inputs. -/

/-- A concrete instance of the external cv2.stereoRectify collaborator:
identity rectifying rotations, a left projection with zero last column
and a right projection whose horizontal translation term P2[0, 3] is -2. -/
def srStub : SRFun := fun _ =>
  ⟨Mat3.id3, Mat3.id3, ⟨Mat3.id3, ⟨0, 0, 0⟩⟩, ⟨Mat3.id3, ⟨-2, 0, 0⟩⟩⟩

/-- A small calibration record on a 2x2 image with identity camera
matrices whose two distortion vectors DIFFER: the left camera has radial
coefficient k1 = 1, the right camera is distortion free. -/
def calSmall : Cal :=
  ⟨Mat3.id3, Mat3.id3, [1, 0, 0, 0, 0], [0, 0, 0, 0, 0], ⟨-1, 0, 0⟩, Mat3.id3, (2, 2)⟩

/-- The stereoRectify argument record produced for `calSmall`. -/
def argsSmall : SRArgs :=
  ⟨calSmall.lkmat, calSmall.ld, calSmall.rkmat, calSmall.rd, (2, 2), calSmall.R, calSmall.T⟩

/-- The state constructed from `calSmall` in conventional mode (the error
branch of the match is unreachable for this input). -/
def stSmall : RectState :=
  match StereoRectifier.init srStub calSmall none "conventional" with
  | .ok st => st
  | .error _ =>
      ⟨"", calSmall, 0, none, ⟨Mat3.id3, ⟨0, 0, 0⟩⟩, ⟨Mat3.id3, ⟨0, 0, 0⟩⟩, (0, 0)⟩

/-- A calibration record with the principal points of the pseudo-mode
exactness scenario: left principal point (100, 50), right (80, 50). -/
def calPP : Cal :=
  ⟨⟨1, 0, 100, 0, 1, 50, 0, 0, 1⟩, ⟨1, 0, 80, 0, 1, 50, 0, 0, 1⟩,
   [0, 0, 0, 0, 0], [0, 0, 0, 0, 0], ⟨-5, 0, 0⟩, Mat3.id3, (2, 2)⟩

/-- The state constructed from `calPP` in pseudo mode. -/
def stPseudo : RectState :=
  match StereoRectifier.init srStub calPP none "pseudo" with
  | .ok st => st
  | .error _ =>
      ⟨"", calPP, 0, none, ⟨Mat3.id3, ⟨0, 0, 0⟩⟩, ⟨Mat3.id3, ⟨0, 0, 0⟩⟩, (0, 0)⟩

/-- A record on a 3x8 image whose vertical crop for target (2, 2) is the
non-half fraction 5/3, separating truncation from rounding. -/
def calFrac : Cal :=
  ⟨⟨3, 0, 3, 0, 3, 10, 0, 0, 1⟩, ⟨3, 0, 3, 0, 3, 10, 0, 0, 1⟩,
   [0, 0, 0, 0, 0], [0, 0, 0, 0, 0], ⟨-5, 0, 0⟩, Mat3.id3, (3, 8)⟩

/-- A record on a 4x4 image with non-trivial intrinsics, used to observe
the in-place update of the loaded record. -/
def calQuad : Cal :=
  ⟨⟨2, 0, 3, 0, 2, 3, 0, 0, 1⟩, ⟨2, 0, 3, 0, 2, 3, 0, 0, 1⟩,
   [0, 0, 0, 0, 0], [0, 0, 0, 0, 0], ⟨-5, 0, 0⟩, Mat3.id3, (4, 4)⟩

/-- A store holding `calQuad` at every address. -/
def storeQuad : Store := fun _ => calQuad

/-- The record produced by the Scale Adapter from `calQuad` for target
size (2, 2). -/
def calQuadScaled : Cal :=
  match scaleCal calQuad (some (2, 2)) with
  | .ok (c, _) => c
  | .error _ => calQuad

/-- The scale factor produced by the Scale Adapter from `calQuad` for
target size (2, 2). -/
def scQuad : ℚ :=
  match scaleCal calQuad (some (2, 2)) with
  | .ok (_, s) => s
  | .error _ => 0

/-! Helper lemmas shared by the claim theorems. -/

/-- Scaling the first two rows by 1 is the identity. -/
theorem scaleRows2_one (m : Mat3) : scaleRows2 m 1 = m := by
  cases m
  simp [scaleRows2]

/-- Subtracting a zero crop is the identity. -/
theorem subCy_zero (m : Mat3) : subCy m 0 = m := by
  cases m
  simp [subCy]

/-- Truncation of zero. -/
theorem truncQ_zero : truncQ 0 = 0 := by
  simp [truncQ]

/-- A successfully constructed state carries the requested mode string. -/
theorem init_mode (sr : SRFun) (cal0 : Cal) (isz : Option (ℚ × ℚ))
    (mode : String) (st : RectState)
    (h : StereoRectifier.init sr cal0 isz mode = .ok st) : st.mode = mode := by
  unfold StereoRectifier.init at h
  split at h
  · split at h
    · split at h
      · injection h with h
        subst h
        rfl
      · exact Except.noConfusion h
    · exact Except.noConfusion h
  · exact Except.noConfusion h

/-- Bilinear sampling at integer coordinates reads the pixel directly. -/
theorem bilinearSample_int (img : Image) (i j : ℤ) :
    bilinearSample img (i : ℚ) (j : ℚ) = pixAt img i j := by
  unfold bilinearSample
  simp [Int.floor_intCast]

/-- Modelled from the claim wording: the image shifted by exactly the
integer offset (dx, dy), every out-of-bounds pixel filled with the border
value, at unchanged size. -/
def shiftIntImage (img : Image) (dx dy : ℤ) : Image :=
  (List.range img.H).map fun (y : ℕ) => (List.range img.W).map fun (x : ℕ) =>
    pixAt img ((x : ℤ) - dx) ((y : ℤ) - dy)

/-- A warpAffine translation by integer offsets is an exact rigid shift
with constant-border fill. -/
theorem warpAffineTranslate_int (img : Image) (dx dy : ℤ) :
    warpAffineTranslate img ((dx : ℤ) : ℚ) ((dy : ℤ) : ℚ) =
      shiftIntImage img dx dy := by
  unfold shiftIntImage
  unfold warpAffineTranslate
  refine List.map_congr_left fun y _ => List.map_congr_left fun x _ => ?_
  have hx : ((x : ℚ) - ((dx : ℤ) : ℚ)) = (((x : ℤ) - dx : ℤ) : ℚ) := by
    push_cast
    ring
  have hy : ((y : ℚ) - ((dy : ℤ) : ℚ)) = (((y : ℤ) - dy : ℤ) : ℚ) := by
    push_cast
    ring
  rw [hx, hy, bilinearSample_int]

/-- The output of remap has the shape of the coordinate maps, independent
of the shape of the input image. -/
theorem remap_shape (img : Image) (m1 m2 : List (List ℚ)) (ip : Interp) :
    (remap img m1 m2 ip).H = m1.length ∧ (remap img m1 m2 ip).W = (m1.headD []).length := by
  constructor
  · simp [remap, Image.H]
  · cases m1 with
    | nil => simp [remap, Image.W]
    | cons h t => simp [remap, Image.W, List.range_succ_eq_map]

/-! Claim theorems. -/

/-- C1 (code bug): the specification says the dense map of each camera is
built from the distortion coefficients of that same camera, but line 36 of
the source passes `distCoeffs=ldist_coeffs` when building the RIGHT map.
On a record whose two distortion vectors differ, the right map produced by
`get_rect_maps` equals the map computed from the LEFT coefficients, and
that map differs from the one the right coefficients would give. -/
theorem right_map_built_with_left_dist :
    ((get_rect_maps srStub calSmall.lkmat calSmall.rkmat calSmall.R calSmall.T
        calSmall.ld calSmall.rd (2, 2) false "conventional").map
      fun res => res.1.map RectMaps.rmap1)
      = .ok (some (initUndistortRectifyMap calSmall.rkmat calSmall.ld
          (srStub argsSmall).r2 (srStub argsSmall).p2 (2, 2)).1)
    ∧ (initUndistortRectifyMap calSmall.rkmat calSmall.ld
          (srStub argsSmall).r2 (srStub argsSmall).p2 (2, 2)).1
        ≠ (initUndistortRectifyMap calSmall.rkmat calSmall.rd
          (srStub argsSmall).r2 (srStub argsSmall).p2 (2, 2)).1 :=
  ⟨rfl, by with_unfolding_all decide⟩

/-- Modelled from the claim wording for C2: translation column
(-P2[0, 3] / P2[0, 0], 0, 0). -/
def extr_t_claim (st : RectState) : Vec3 :=
  ⟨-st.r_intr.t.x / st.r_intr.m.a00, 0, 0⟩

/-- C2 counterexample: on a successful conventional construction whose
right projection has P2[0, 3] = -2 and P2[0, 0] = 1, the code returns
translation (-2, 0, 0) while the claimed formula yields (2, 0, 0). -/
theorem summary_extr_sign_cex :
    StereoRectifier.init srStub calSmall none "conventional" = .ok stSmall
    ∧ (get_rectified_calib stSmall).extr_t = ⟨-2, 0, 0⟩
    ∧ extr_t_claim stSmall = ⟨2, 0, 0⟩
    ∧ (⟨-2, 0, 0⟩ : Vec3) ≠ ⟨2, 0, 0⟩ :=
  ⟨rfl, by with_unfolding_all decide, by with_unfolding_all decide,
   by with_unfolding_all decide⟩

/-- C2 (amended): for every successful conventional-mode construction the
summary extrinsic transform is the identity rotation with translation
column (P2[0, 3] / P2[0, 0], 0, 0) - WITHOUT the negation stated in the
claim (the code stores Tx itself, matching the raw negative translation
used in pseudo mode). -/
theorem summary_extrinsics_conventional (sr : SRFun) (cal0 : Cal)
    (isz : Option (ℚ × ℚ)) (st : RectState)
    (h : StereoRectifier.init sr cal0 isz "conventional" = .ok st) :
    (get_rectified_calib st).extr_rot = Mat3.id3
    ∧ (get_rectified_calib st).extr_t
        = ⟨st.r_intr.t.x / st.r_intr.m.a00, 0, 0⟩ := by
  have hm := init_mode sr cal0 isz "conventional" st h
  constructor
  · rfl
  · simp [get_rectified_calib, hm]

/-- Witness for C2 (amended) at the concrete conventional state. -/
theorem summary_extrinsics_conventional_witness :
    (get_rectified_calib stSmall).extr_rot = Mat3.id3
    ∧ (get_rectified_calib stSmall).extr_t
        = ⟨stSmall.r_intr.t.x / stSmall.r_intr.m.a00, 0, 0⟩ :=
  summary_extrinsics_conventional srStub calSmall none stSmall rfl

/-- Modelled from the claim wording for C3: the vertical crop computed
with rounding, h_crop = round((original_height * scale - target_height) / 2),
instead of the Python int() truncation of the source. -/
def scaleCal_claim_round (cal : Cal) (isz : ℚ × ℚ) : Except Err (Cal × ℚ) :=
  let scale := isz.1 / cal.img_size.1
  let h_crop : ℤ := round ((cal.img_size.2 * scale - isz.2) / 2)
  if 0 ≤ h_crop then
    .ok ({ cal with
            lkmat := subCy (scaleRows2 cal.lkmat scale) (h_crop : ℚ),
            rkmat := subCy (scaleRows2 cal.rkmat scale) (h_crop : ℚ),
            img_size := isz }, scale)
  else
    .error Err.UnsupportedCropKind

/-- C3 counterexample: for a 3x8 record scaled to (2, 2) the crop value is
5/3; the code truncates it to 1, the claimed rounding yields 2, and the
two resulting vertical principal points differ (17/3 versus 14/3). -/
theorem scale_crop_round_cex :
    (scaleCal calFrac (some (2, 2))).map (fun p => p.1.lkmat.a12) = .ok (17 / 3)
    ∧ (scaleCal_claim_round calFrac (2, 2)).map (fun p => p.1.lkmat.a12) = .ok (14 / 3)
    ∧ ((17 : ℚ) / 3) ≠ 14 / 3 :=
  ⟨by with_unfolding_all rfl, by with_unfolding_all rfl, by norm_num⟩

/-- C3 (amended): the Scale Adapter computes
h_crop = int((original_height * scale - target_height) / 2) with Python
truncation toward zero (not rounding), fails with UnsupportedCropKind
exactly when that truncated crop is negative, and on failure the store is
unchanged: no partially-scaled record is observable. -/
theorem scaleAdapter_trunc_and_atomic (s : Store) (a : Nat) (isz : ℚ × ℚ) :
    ((scaleAdapterRun s a (some isz)).1 = .error Err.UnsupportedCropKind
      ↔ truncQ (((s a).img_size.2 * (isz.1 / (s a).img_size.1) - isz.2) / 2) < 0)
    ∧ (∀ e : Err, (scaleAdapterRun s a (some isz)).1 = .error e →
        (scaleAdapterRun s a (some isz)).2 = s) := by
  by_cases hq : 0 ≤ truncQ (((s a).img_size.2 * (isz.1 / (s a).img_size.1) - isz.2) / 2)
  · constructor
    · simp only [scaleAdapterRun, scaleCal, if_pos hq]
      constructor
      · intro hfalse
        exact Except.noConfusion hfalse
      · intro hlt
        omega
    · intro e he
      simp only [scaleAdapterRun, scaleCal, if_pos hq] at he
      exact Except.noConfusion he
  · constructor
    · simp only [scaleAdapterRun, scaleCal, if_neg hq]
      constructor
      · intro _
        omega
      · intro _
        trivial
    · intro e _
      simp only [scaleAdapterRun, scaleCal, if_neg hq]

/-- Witness for C3 (amended): target (4, 9) on a 4x4 record gives the
truncated crop -2, the adapter fails with UnsupportedCropKind and the
store is left untouched. -/
theorem scaleAdapter_trunc_and_atomic_witness :
    (scaleAdapterRun storeQuad 0 (some (4, 9))).1 = .error Err.UnsupportedCropKind
    ∧ (scaleAdapterRun storeQuad 0 (some (4, 9))).2 = storeQuad :=
  ⟨(scaleAdapter_trunc_and_atomic storeQuad 0 (4, 9)).1.mpr (by with_unfolding_all decide),
   (scaleAdapter_trunc_and_atomic storeQuad 0 (4, 9)).2 Err.UnsupportedCropKind
     ((scaleAdapter_trunc_and_atomic storeQuad 0 (4, 9)).1.mpr (by with_unfolding_all decide))⟩

/-- C4: in pseudo mode the left image passes through unchanged and the
right image is shifted by exactly the difference of the two principal
points (x0 - x1, y0 - y1) read from the camera matrices, out-of-bounds
pixels reading the border value (the integrality hypotheses express that
the principal-point differences are whole-pixel offsets, as in the
specification scenario (100, 50) versus (80, 50)). -/
theorem pseudo_call_exact_shift (st : RectState) (l r : Image) (dx dy : ℤ)
    (hm : st.mode = "pseudo")
    (hx : st.cal.lkmat.a02 - st.cal.rkmat.a02 = (dx : ℚ))
    (hy : st.cal.lkmat.a12 - st.cal.rkmat.a12 = (dy : ℚ)) :
    StereoRectifier.call st l r = (l, shiftIntImage r dx dy) := by
  unfold StereoRectifier.call
  rw [if_pos hm]
  unfold pseudo_rectify_2d
  show (l, warpAffineTranslate r (st.cal.lkmat.a02 - st.cal.rkmat.a02)
    (st.cal.lkmat.a12 - st.cal.rkmat.a12)) = (l, shiftIntImage r dx dy)
  rw [hx, hy, warpAffineTranslate_int]

/-- Witness for C4 at the specification scenario: principal points
(100, 50) and (80, 50) shift the right image by exactly (+20, 0). -/
theorem pseudo_call_exact_shift_witness :
    StereoRectifier.call stPseudo [[1, 2], [3, 4]] [[5, 6], [7, 8]]
      = ([[1, 2], [3, 4]], shiftIntImage [[5, 6], [7, 8]] 20 0) :=
  pseudo_call_exact_shift stPseudo [[1, 2], [3, 4]] [[5, 6], [7, 8]] 20 0
    rfl (by with_unfolding_all decide) (by with_unfolding_all decide)

/-- C5: for every successful construction the summary computes
bf_orig = bf / scale, so that bf_orig * scale recovers bf whenever the
scale factor is non-zero (every scale produced from positive image sizes). -/
theorem bf_roundtrip (sr : SRFun) (cal0 : Cal) (isz : Option (ℚ × ℚ))
    (mode : String) (st : RectState)
    (hinit : StereoRectifier.init sr cal0 isz mode = .ok st)
    (hs : st.scale ≠ 0) :
    summaryBfOrig st = summaryBf st / ((st.scale : ℚ) : ℝ)
    ∧ summaryBfOrig st * ((st.scale : ℚ) : ℝ) = summaryBf st := by
  refine ⟨rfl, ?_⟩
  unfold summaryBfOrig
  exact div_mul_cancel₀ _ (by exact_mod_cast hs)

/-- Witness for C5 at the concrete conventional state of scale 1. -/
theorem bf_roundtrip_witness :
    summaryBfOrig stSmall = summaryBf stSmall / ((stSmall.scale : ℚ) : ℝ)
    ∧ summaryBfOrig stSmall * ((stSmall.scale : ℚ) : ℝ) = summaryBf stSmall :=
  bf_roundtrip srStub calSmall none "conventional" stSmall rfl
    (by with_unfolding_all decide)

/-- C6: for every mode string that is neither conventional nor pseudo,
construction fails with UnsupportedModeKind and no state is produced; the
statement is quantified over the stereoRectify collaborator and the
calibration record, so the failure is independent of any map computation. -/
theorem init_rejects_bad_mode (sr : SRFun) (cal0 : Cal) (isz : Option (ℚ × ℚ))
    (mode : String)
    (h1 : mode ≠ "conventional") (h2 : mode ≠ "pseudo") :
    StereoRectifier.init sr cal0 isz mode = .error Err.UnsupportedModeKind := by
  unfold StereoRectifier.init
  rw [if_neg]
  rintro (h | h)
  · exact h1 h
  · exact h2 h

/-- Witness for C6 with the mode string of the specification scenario. -/
theorem init_rejects_bad_mode_witness :
    StereoRectifier.init srStub calSmall none "bogus" = .error Err.UnsupportedModeKind :=
  init_rejects_bad_mode srStub calSmall none "bogus" (by decide) (by decide)

/-- C7: with the target size omitted, or equal to the image size of the
record (of non-zero width, the invariant of the data model), the Scale
Adapter returns the record unchanged with scale 1. -/
theorem scaleCal_passthrough (cal : Cal) (isz : ℚ × ℚ)
    (hw : cal.img_size.1 ≠ 0) (heq : isz = cal.img_size) :
    scaleCal cal none = .ok (cal, 1) ∧ scaleCal cal (some isz) = .ok (cal, 1) := by
  subst heq
  refine ⟨rfl, ?_⟩
  have hs : cal.img_size.1 / cal.img_size.1 = 1 := div_self hw
  simp [scaleCal, hs, truncQ_zero, scaleRows2_one, subCy_zero]

/-- Witness for C7 on a concrete record of width 4. -/
theorem scaleCal_passthrough_witness :
    scaleCal calQuad none = .ok (calQuad, 1)
    ∧ scaleCal calQuad (some (4, 4)) = .ok (calQuad, 1) :=
  scaleCal_passthrough calQuad (4, 4) (by with_unfolding_all decide)
    (by with_unfolding_all decide)

/-- C8 counterexample: after the successful conventional construction
`stSmall` (2x2 maps), calling the rectifier on WRONG-SIZED 1x1 images does
NOT fail with a size-mismatch error: it silently resamples, returning a
2x2 output whose out-of-range samples read the constant border. -/
theorem rectify_no_size_check_cex :
    StereoRectifier.callE stSmall [[5]] [[5]]
      = .ok ([[5, 0], [0, 0]], [[5, 0], [0, 0]]) := by
  with_unfolding_all rfl

/-- C8 (amended): after a successful conventional construction a rectify
call never throws for inputs of ANY size: the embedded call path has no
failure branch, and the output shape is dictated by the coordinate maps
alone, so wrong-sized inputs are silently resampled against the maps
(with border fill) instead of failing fast. -/
theorem rectify_total_output_size (sr : SRFun) (cal0 : Cal)
    (isz : Option (ℚ × ℚ)) (st : RectState) (l r : Image)
    (hinit : StereoRectifier.init sr cal0 isz "conventional" = .ok st) :
    StereoRectifier.callE st l r = .ok (StereoRectifier.call st l r)
    ∧ (StereoRectifier.call st l r).1.H = (st.maps.getD ⟨[], [], [], []⟩).lmap1.length
    ∧ (StereoRectifier.call st l r).2.H = (st.maps.getD ⟨[], [], [], []⟩).rmap1.length := by
  have hm := init_mode sr cal0 isz "conventional" st hinit
  have hnp : ¬ st.mode = "pseudo" := by
    rw [hm]
    decide
  refine ⟨rfl, ?_, ?_⟩
  · unfold StereoRectifier.call
    rw [if_neg hnp]
    exact (remap_shape l (st.maps.getD ⟨[], [], [], []⟩).lmap1
      (st.maps.getD ⟨[], [], [], []⟩).lmap2 (cvInterpol "nearest")).1
  · unfold StereoRectifier.call
    rw [if_neg hnp]
    exact (remap_shape r (st.maps.getD ⟨[], [], [], []⟩).rmap1
      (st.maps.getD ⟨[], [], [], []⟩).rmap2 (cvInterpol "nearest")).1

/-- Witness for C8 (amended) on deliberately wrong-sized 1x1 inputs. -/
theorem rectify_total_output_size_witness :
    StereoRectifier.callE stSmall [[5]] [[5]]
        = .ok (StereoRectifier.call stSmall [[5]] [[5]])
    ∧ (StereoRectifier.call stSmall [[5]] [[5]]).1.H
        = (stSmall.maps.getD ⟨[], [], [], []⟩).lmap1.length
    ∧ (StereoRectifier.call stSmall [[5]] [[5]]).2.H
        = (stSmall.maps.getD ⟨[], [], [], []⟩).rmap1.length :=
  rectify_total_output_size srStub calSmall none stSmall [[5]] [[5]] rfl

/-- C9 counterexample: running the Scale Adapter on the record stored at
address 0 with target (2, 2) succeeds and OVERWRITES the stored record:
after the call the record at the input address differs from the input. -/
theorem scaleAdapter_mutates_cex :
    (scaleAdapterRun storeQuad 0 (some (2, 2))).1 = .ok ()
    ∧ (scaleAdapterRun storeQuad 0 (some (2, 2))).2 0 ≠ storeQuad 0 := by
  constructor
  · with_unfolding_all rfl
  · with_unfolding_all decide

/-- C9 (amended): the Scale Adapter updates the calibration record IN
PLACE: on success the record at the input address holds the scaled record
and every other address is untouched; the mutation is confined to the
record being constructed. -/
theorem scaleAdapter_inplace_update (s : Store) (a : Nat)
    (isz : Option (ℚ × ℚ)) (cal' : Cal) (sc : ℚ)
    (h : scaleCal (s a) isz = .ok (cal', sc)) :
    (scaleAdapterRun s a isz).1 = .ok ()
    ∧ (scaleAdapterRun s a isz).2 a = cal'
    ∧ ∀ n : Nat, n ≠ a → (scaleAdapterRun s a isz).2 n = s n := by
  unfold scaleAdapterRun
  rw [h]
  refine ⟨rfl, by simp, fun n hn => by simp [hn]⟩

/-- Witness for C9 (amended) at the concrete store and target (2, 2). -/
theorem scaleAdapter_inplace_update_witness :
    (scaleAdapterRun storeQuad 0 (some (2, 2))).1 = .ok ()
    ∧ (scaleAdapterRun storeQuad 0 (some (2, 2))).2 0 = calQuadScaled :=
  ⟨(scaleAdapter_inplace_update storeQuad 0 (some (2, 2)) calQuadScaled scQuad
      (by with_unfolding_all rfl)).1,
   (scaleAdapter_inplace_update storeQuad 0 (some (2, 2)) calQuadScaled scQuad
      (by with_unfolding_all rfl)).2.1⟩

/-- C10: the interpolation policy is never validated: every method string
other than exactly "nearest" silently selects the cubic kernel, and
rectify_pair proceeds with cubic remapping rather than raising an error. -/
theorem interp_fallback_cubic (method : String) (l r : Image) (maps : RectMaps)
    (h : method ≠ "nearest") :
    cvInterpol method = Interp.cubic
    ∧ rectify_pair l r maps method
        = (remap l maps.lmap1 maps.lmap2 Interp.cubic,
           remap r maps.rmap1 maps.rmap2 Interp.cubic) := by
  have hc : cvInterpol method = Interp.cubic := by
    unfold cvInterpol
    rw [if_neg h]
  refine ⟨hc, ?_⟩
  unfold rectify_pair
  rw [hc]

/-- Witness for C10 at a misspelled method string. -/
theorem interp_fallback_cubic_witness :
    cvInterpol "neareest" = Interp.cubic
    ∧ rectify_pair [[1]] [[1]] ⟨[[0]], [[0]], [[0]], [[0]]⟩ "neareest"
        = (remap [[1]] [[0]] [[0]] Interp.cubic,
           remap [[1]] [[0]] [[0]] Interp.cubic) :=
  interp_fallback_cubic "neareest" [[1]] [[1]] ⟨[[0]], [[0]], [[0]], [[0]]⟩
    (by decide)
